import Mathlib

/-!
Verification of the DSMR P1 telegram pipeline (victron-dbus-p1).

The development shallowly embeds the pipeline of `dsmr.py` and the
acquisition loop of `bridge.py`: strings are lists of characters, byte
strings are lists of characters as well (the serial data is ASCII), and
Python's 16-bit `c_ushort` truncations appear as explicit `% 65536`.
Fallible Python operations (exceptions) are modelled with `Option` /
explicit result variants.
-/

set_option maxRecDepth 100000

namespace P1

/-! ## Shared string helpers -/

/-- ASCII whitespace as recognised by Python's `str.strip` family
(space, tab, newline, carriage return, vertical tab, form feed). -/
def isPyWs (c : Char) : Bool :=
  c == ' ' || c == '\t' || c == '\n' || c == '\r' || c == '\x0b' || c == '\x0c'

/-- `s.rstrip()` : drop trailing whitespace. -/
def rstripWs (s : List Char) : List Char :=
  (s.reverse.dropWhile isPyWs).reverse

/-- `s.index(c)` as an `Option`: position of the first occurrence of `c`
(`str.index` raises `ValueError` when absent, modelled as `none`). -/
def index? (c : Char) : List Char → Option Nat
  | [] => none
  | x :: xs => if x = c then some 0 else (index? c xs).map (· + 1)

/-- `line.startswith(<single byte>)`. -/
def startsWithChar (c : Char) : List Char → Bool
  | [] => false
  | x :: _ => x == c

/-- Concatenation of a list of lines, preserving the line terminators. -/
def concatAll : List (List Char) → List Char
  | [] => []
  | l :: ls => l ++ concatAll ls

/-! ## Checksum engine: `TelegramParser.crc16_table` and `TelegramParser.crc16`
(dsmr.py lines 67-108) -/

/-- One round of the table-construction inner loop (dsmr.py lines 74-78):
`crc = c_ushort(crc >> 1).value ^ 0xA001` when the low bit is set, else
`crc = c_ushort(crc >> 1).value`; `c_ushort(x).value` is `x % 2^16`. -/
def crcTableRound (crc : Nat) : Nat :=
  if crc &&& 1 = 1 then ((crc >>> 1) % 65536) ^^^ 0xA001
  else (crc >>> 1) % 65536

/-- Entry `i` of `TelegramParser.crc16_table` (dsmr.py lines 70-79), as a
natural number.  The Python code starts from `c_ushort(i).value` and runs the
round 8 times; it stores `hex(crc)` strings and re-parses them with
`int(_, 0)` at lookup time (line 106), a round trip that is the identity on
the stored number, so the table is embedded directly as numbers. -/
def crcTableEntry (i : Nat) : Nat :=
  (List.range 8).foldl (fun crc _ => crcTableRound crc) (i % 65536)

/-- `TelegramParser.crc16_table`: the 256-entry table built once. -/
def crc16_table : List Nat := (List.range 256).map crcTableEntry

/-- `TelegramParser.crc16` (dsmr.py lines 93-108) applied to the list of
character codes of the input string: `tmp = crc ^ ord(c)`,
`rotated = c_ushort(crc >> 8).value`, `crc = rotated ^ table[tmp & 0x00ff]`. -/
def crc16 (cs : List Nat) : Nat :=
  cs.foldl (fun crc d =>
    ((crc >>> 8) % 65536) ^^^ crc16_table.getD ((crc ^^^ d) &&& 0xff) 0) 0

/-- Reference definition written from the spec's words (§4.1): one round is
"if the low bit is set, right-shift-by-1 XOR 0xA001, else right-shift-by-1". -/
def specTableRound (v : Nat) : Nat :=
  if v &&& 1 = 1 then (v >>> 1) ^^^ 0xA001 else v >>> 1

/-- Spec §4.1: entry *i* is the result of 8 rounds starting from value *i*. -/
def specTableEntry (i : Nat) : Nat :=
  (List.range 8).foldl (fun v _ => specTableRound v) i

/-- The spec's 256-entry table. -/
def specTable : List Nat := (List.range 256).map specTableEntry

/-- Spec §4.1, fold (init 0x0000): "for each byte, XOR with the low byte of
the running CRC to index the table, then XOR the table entry with the CRC
right-shifted by 8 bits". -/
def specCrc16 (bs : List Nat) : Nat :=
  bs.foldl (fun crc b =>
    specTable.getD ((crc &&& 0xff) ^^^ b) 0 ^^^ (crc >>> 8)) 0

/-! ## Telegram construction and `TelegramParser.parse` (dsmr.py lines 52-55
and 81-91) -/

/-- Split at the first `"\r\n"`, as `raw.split('\r\n', 1)` does when the
separator occurs; `none` when it does not (in which case the two-target
unpacking in `Telegram.__init__` raises `ValueError`). -/
def splitCrlf? : List Char → Option (List Char × List Char)
  | [] => none
  | '\r' :: '\n' :: rest => some ([], rest)
  | c :: rest => (splitCrlf? rest).map (fun p => (c :: p.1, p.2))

/-- `data.lstrip('\r\n')`: drop leading characters belonging to the set
`{'\r', '\n'}`. -/
def lstripCrlf (s : List Char) : List Char :=
  s.dropWhile (fun c => c == '\r' || c == '\n')

/-- The structured telegram produced by `Telegram.__init__`
(dsmr.py lines 52-55): header line and left-stripped data section. -/
structure TelegramS where
  header : List Char
  data : List Char
deriving DecidableEq

/-- Result of `TelegramParser.parse`: a `Telegram`, the `None` returned on a
checksum mismatch (the ChecksumError outcome), or an uncaught Python
exception escaping `parse`. -/
inductive ParseResult
  | tele (t : TelegramS)
  | crcError
  | exn
deriving DecidableEq

/-- `Telegram.__init__` (dsmr.py lines 52-55): `raw.split('\r\n', 1)`
unpacked into header and data; when `raw` contains no `"\r\n"` the unpacking
raises `ValueError` (modelled `.exn`); otherwise the data section is
left-stripped of `'\r'` and `'\n'`. -/
def mkTelegram (raw : List Char) : ParseResult :=
  match splitCrlf? raw with
  | none => .exn
  | some (h, rest) => .tele ⟨h, lstripCrlf rest⟩

/-- Value of one hexadecimal digit. -/
def hexDigitVal? (c : Char) : Option Nat :=
  if '0' ≤ c ∧ c ≤ '9' then some (c.toNat - '0'.toNat)
  else if 'a' ≤ c ∧ c ≤ 'f' then some (c.toNat - 'a'.toNat + 10)
  else if 'A' ≤ c ∧ c ≤ 'F' then some (c.toNat - 'A'.toNat + 10)
  else none

/-- Accumulate hexadecimal digits left to right; `none` on a non-digit. -/
def hexAcc (acc : Nat) : List Char → Option Nat
  | [] => some acc
  | d :: ds =>
    match hexDigitVal? d with
    | some v => hexAcc (16 * acc + v) ds
    | none => none

/-- One or more hexadecimal digits. -/
def hexDigits? : List Char → Option Nat
  | [] => none
  | ds => hexAcc 0 ds

/-- Python `int(s, base=16)` on checksum text: optional surrounding
whitespace, optional sign, then one or more hex digits.  (The `0x` prefix
and underscore separators that `int` also tolerates never occur in checksum
text and are not modelled.)  `none` models the `ValueError` raised on any
other shape. -/
def pyIntHex? (s : List Char) : Option Int :=
  match rstripWs (s.dropWhile isPyWs) with
  | '+' :: ds => (hexDigits? ds).map Int.ofNat
  | '-' :: ds => (hexDigits? ds).map (fun n => -(n : Int))
  | ds => (hexDigits? ds).map Int.ofNat

/-- `TelegramParser.parse` (dsmr.py lines 81-91).  `telegram.index('!')`
raises `ValueError` when there is no `'!'` (modelled `.exn`); the body is
everything through the first `'!'`, the rest is right-stripped checksum
text; empty checksum text skips validation; `int(crc, base=16)` raises on
non-hex text (`.exn`); a mismatch returns `None` (modelled `.crcError`). -/
def parse (s : List Char) : ParseResult :=
  match index? '!' s with
  | none => .exn
  | some ix =>
    if rstripWs (s.drop (ix + 1)) = [] then mkTelegram (s.take (ix + 1))
    else
      match pyIntHex? (rstripWs (s.drop (ix + 1))) with
      | none => .exn
      | some expected =>
        if (crc16 ((s.take (ix + 1)).map Char.toNat) : Int) = expected then
          mkTelegram (s.take (ix + 1))
        else .crcError

/-! ## Telegram framer: `SerialReader._read_telegram` (dsmr.py lines 125-144)

The serial input is modelled statically: the buffered input is the list of
lines that successive `ser.read_until(b'\n')` calls will return, in order;
exhaustion of the list, or an empty line, is a read timeout (Python raises
`TimeoutError`, modelled `none`); `ser.in_waiting` is nonzero exactly when
further lines remain in the buffer. -/

/-- The loop of `_read_telegram`: `acc` is the `telegram` accumulator
variable (`none` before a start-marker line is seen).  A line starting with
`'/'` begins accumulation; every subsequent line is appended; on a line
starting with `'!'`, if `only_last` is set and input is still waiting the
assembled telegram is discarded and framing restarts, otherwise the
telegram is returned. -/
def readLines (onlyLast : Bool) (acc : Option (List Char)) :
    List (List Char) → Option (List Char)
  | [] => none
  | l :: rest =>
    if l.isEmpty then none
    else
      match acc with
      | none => readLines onlyLast (if startsWithChar '/' l then some l else none) rest
      | some t =>
        if startsWithChar '!' l then
          if onlyLast && !rest.isEmpty then readLines onlyLast none rest
          else some (t ++ l)
        else readLines onlyLast (some (t ++ l)) rest

/-- `SerialReader._read_telegram(only_last)` on a buffered line list. -/
def readTelegram (onlyLast : Bool) (lines : List (List Char)) : Option (List Char) :=
  readLines onlyLast none lines

/-- A well-formed buffered telegram: a start-marker line, middle lines (none
empty, none an end-marker line), and a final end-marker line. -/
def WfTelegram (t : List (List Char)) : Prop :=
  ∃ h mid last, t = h :: (mid ++ [last]) ∧
    startsWithChar '/' h = true ∧
    (∀ l ∈ mid, l.isEmpty = false ∧ startsWithChar '!' l = false) ∧
    startsWithChar '!' last = true

/-! ## Field decoding: `CosemValue.__init__` (dsmr.py lines 34-43) -/

/-- `s.strip()` : drop whitespace from both ends. -/
def stripWs (s : List Char) : List Char :=
  rstripWs (s.dropWhile isPyWs)

/-- Drop one optional leading sign. -/
def dropSign : List Char → List Char
  | '+' :: cs => cs
  | '-' :: cs => cs
  | cs => cs

/-- Case-insensitive `inf`, `infinity`, `nan` (accepted by `float()`). -/
def isInfNanStr (t : List Char) : Bool :=
  t.map Char.toLower = ['i', 'n', 'f'] ||
  t.map Char.toLower = ['i', 'n', 'f', 'i', 'n', 'i', 't', 'y'] ||
  t.map Char.toLower = ['n', 'a', 'n']

/-- Optional sign then one or more decimal digits (a float exponent). -/
def expSignDigits (cs : List Char) : Bool :=
  let cs2 := dropSign cs
  !cs2.isEmpty && cs2.all Char.isDigit

/-- An optional exponent part `e`/`E` sign? digits. -/
def expOk : List Char → Bool
  | [] => true
  | 'e' :: cs => expSignDigits cs
  | 'E' :: cs => expSignDigits cs
  | _ => false

/-- Unsigned float mantissa with optional exponent:
`digits+ ('.' digits*)? exp?` or `'.' digits+ exp?`. -/
def mantissaExp (t : List Char) : Bool :=
  let ip := t.takeWhile Char.isDigit
  let rest := t.dropWhile Char.isDigit
  if ip.isEmpty then
    match rest with
    | '.' :: cs => !(cs.takeWhile Char.isDigit).isEmpty && expOk (cs.dropWhile Char.isDigit)
    | _ => false
  else
    match rest with
    | '.' :: cs => expOk (cs.dropWhile Char.isDigit)
    | _ => expOk rest

/-- Acceptance of Python `float(s)`: surrounding whitespace, an optional
sign, then either an infinity/NaN word or a decimal mantissa with optional
exponent.  (Underscore digit separators, which `float` also tolerates, never
occur in meter payloads and are not modelled.) -/
def floatAccepts (s : List Char) : Bool :=
  let t := dropSign (stripWs s)
  isInfNanStr t || mantissaExp t

/-- The `value` attribute of a `CosemValue`: a float (kept as its source
text — values are reported at the precision present in the telegram, and no
claim depends on the numeric value beyond `float()` acceptance) or the
opaque payload text. -/
inductive PyVal
  | num (magnitude : List Char)
  | txt (s : List Char)
deriving DecidableEq

/-- The decoded field: `value` and `unit` attributes of `CosemValue`.  The
`name` attribute is the queried identifier itself and is left implicit. -/
structure CosemValue where
  value : PyVal
  unit : Option (List Char)
deriving DecidableEq

/-- The body of `CosemValue.__init__` (dsmr.py lines 38-43) applied to the
extracted payload `data`: `value, self.unit = data.split('*')` followed by
`self.value = float(value)`; a `ValueError` — raised either because the
split does not have exactly two parts or because `float` rejects the
magnitude — is caught and the whole payload becomes opaque text with no
unit. -/
def cosemDecode (data : List Char) : CosemValue :=
  match data.splitOn '*' with
  | [v, u] => if floatAccepts v then ⟨.num v, some u⟩ else ⟨.txt data, none⟩
  | _ => ⟨.txt data, none⟩

/-- Payload extraction of dsmr.py line 37: the text after the first `'('`
(`line.split('(', 1)[1]` raises `IndexError` when there is none, modelled
`none`). -/
def afterParen? : List Char → Option (List Char)
  | [] => none
  | '(' :: rest => some rest
  | _ :: rest => afterParen? rest

/-- `.rstrip(')')`: drop trailing `')'` characters. -/
def rstripParen (s : List Char) : List Char :=
  (s.reverse.dropWhile (· == ')')).reverse

/-- `CosemValue.__init__` on a whole matched line: cut out the payload
(possible `IndexError`, modelled `none`) and decode it. -/
def cosemOfLine? (line : List Char) : Option CosemValue :=
  (afterParen? line).map (fun rest => cosemDecode (rstripParen rest))

/-! ## Field extractor: `OBIS_ID` and `Telegram.__getitem__`
(dsmr.py lines 9-31 and 57-64)

Every `OBIS_ID` pattern has the shape `\d-\d:<code>.+?\r\n` with `<code>` a
literal (the escaped-dot OBIS code).  `re.search` semantics for this closed
pattern family: scan start positions left to right; at a position, match a
digit, `'-'`, a digit, `':'`, the literal code, then the non-greedy `.+?\r\n`
— at least one character other than `'\n'`, extended minimally until the
first `"\r\n"`. -/

/-- The Object Identification System constants (dsmr.py lines 9-31). -/
inductive OBIS_ID
  | P1_MESSAGE_TIMESTAMP
  | EQUIPMENT_IDENTIFIER
  | ELECTRICITY_USAGE
  | ELECTRICITY_DELIVERY
  | ELECTRICITY_USED_TARIFF_1
  | ELECTRICITY_USED_TARIFF_2
  | ELECTRICITY_DELIVERED_TARIFF_1
  | ELECTRICITY_DELIVERED_TARIFF_2
  | VOLTAGE_L1
  | VOLTAGE_L2
  | VOLTAGE_L3
  | CURRENT_L1
  | CURRENT_L2
  | CURRENT_L3
  | ACTIVE_POWER_L1_POSITIVE
  | ACTIVE_POWER_L2_POSITIVE
  | ACTIVE_POWER_L3_POSITIVE
  | ACTIVE_POWER_L1_NEGATIVE
  | ACTIVE_POWER_L2_NEGATIVE
  | ACTIVE_POWER_L3_NEGATIVE
deriving DecidableEq

/-- The literal OBIS code inside each identifier's pattern (the part between
`\d-\d:` and `.+?\r\n`, with the regex escapes removed). -/
def obisCode : OBIS_ID → List Char
  | .P1_MESSAGE_TIMESTAMP => ['1', '.', '0', '.', '0']
  | .EQUIPMENT_IDENTIFIER => ['9', '6', '.', '1', '.', '1']
  | .ELECTRICITY_USAGE => ['1', '.', '7', '.', '0']
  | .ELECTRICITY_DELIVERY => ['2', '.', '7', '.', '0']
  | .ELECTRICITY_USED_TARIFF_1 => ['1', '.', '8', '.', '1']
  | .ELECTRICITY_USED_TARIFF_2 => ['1', '.', '8', '.', '2']
  | .ELECTRICITY_DELIVERED_TARIFF_1 => ['2', '.', '8', '.', '1']
  | .ELECTRICITY_DELIVERED_TARIFF_2 => ['2', '.', '8', '.', '2']
  | .VOLTAGE_L1 => ['3', '2', '.', '7', '.', '0']
  | .VOLTAGE_L2 => ['5', '2', '.', '7', '.', '0']
  | .VOLTAGE_L3 => ['7', '2', '.', '7', '.', '0']
  | .CURRENT_L1 => ['3', '1', '.', '7', '.', '0']
  | .CURRENT_L2 => ['5', '1', '.', '7', '.', '0']
  | .CURRENT_L3 => ['7', '1', '.', '7', '.', '0']
  | .ACTIVE_POWER_L1_POSITIVE => ['2', '1', '.', '7', '.', '0']
  | .ACTIVE_POWER_L2_POSITIVE => ['4', '1', '.', '7', '.', '0']
  | .ACTIVE_POWER_L3_POSITIVE => ['6', '1', '.', '7', '.', '0']
  | .ACTIVE_POWER_L1_NEGATIVE => ['2', '2', '.', '7', '.', '0']
  | .ACTIVE_POWER_L2_NEGATIVE => ['4', '2', '.', '7', '.', '0']
  | .ACTIVE_POWER_L3_NEGATIVE => ['6', '2', '.', '7', '.', '0']

/-- Scan for the first `"\r\n"`, requiring every character before it to be
other than `'\n'` (a regex `.` cannot match `'\n'`); returns the consumed
segment including the `"\r\n"`. -/
def crlfScan? : List Char → Option (List Char)
  | c1 :: c2 :: rest =>
    if c1 = '\r' ∧ c2 = '\n' then some ['\r', '\n']
    else if c1 = '\n' then none
    else (crlfScan? (c2 :: rest)).map (c1 :: ·)
  | _ => none

/-- The non-greedy `.+?\r\n` tail: at least one non-`'\n'` character, then
the minimal extension up to the first `"\r\n"`; returns the matched tail. -/
def dotPlusCrlf? : List Char → Option (List Char)
  | [] => none
  | c :: rest => if c = '\n' then none else (crlfScan? rest).map (c :: ·)

/-- Match one identifier pattern at the start of `s`; returns `group(0)`. -/
def obisLineAt? (code : List Char) : List Char → Option (List Char)
  | a :: b :: c :: d :: rest =>
    if a.isDigit ∧ b = '-' ∧ c.isDigit ∧ d = ':' ∧ rest.take code.length = code then
      (dotPlusCrlf? (rest.drop code.length)).map
        (fun seg => a :: b :: c :: d :: (code ++ seg))
    else none
  | _ => none

/-- `re.search`: the match at the leftmost start position that admits one. -/
def reSearch (code : List Char) : List Char → Option (List Char)
  | [] => none
  | c :: rest =>
    match obisLineAt? code (c :: rest) with
    | some m => some m
    | none => reSearch code rest

/-- Result of `Telegram.__getitem__`: a decoded value, the `None` returned
when no line matches (NotFound), or an uncaught exception (the `IndexError`
of the payload extraction when a matched line has no `'('`). -/
inductive GetResult
  | found (v : CosemValue)
  | notFound
  | exn
deriving DecidableEq

/-- `Telegram.__getitem__` (dsmr.py lines 57-64): search the data section
with the identifier's pattern; `None` when nothing matches; otherwise build
`CosemValue(id, match.group(0).strip())`. -/
def telegramGet (t : TelegramS) (id : OBIS_ID) : GetResult :=
  match reSearch (obisCode id) t.data with
  | none => .notFound
  | some line =>
    match cosemOfLine? (stripWs line) with
    | none => .exn
    | some v => .found v

/-- Declarative form of "the identifier's pattern matches at the start of
`s`": a digit, `'-'`, a digit, `':'`, the literal code, then at least one
non-`'\n'` character followed by `"\r\n"`. -/
def HeadMatch (code s : List Char) : Prop :=
  ∃ a b c d rest, s = a :: b :: c :: d :: rest ∧ a.isDigit = true ∧ b = '-' ∧
    c.isDigit = true ∧ d = ':' ∧ rest.take code.length = code ∧
    ∃ p q, rest.drop code.length = p ++ '\r' :: '\n' :: q ∧ p ≠ [] ∧
      ∀ x ∈ p, x ≠ '\n'

/-! ## Acquisition loop: `P1DbusBridge.run` (bridge.py lines 113-147)

The loop is embedded as a transition system.  Two control states mirror the
two nested `while` loops of `run`: `acquiring` is the outer acquisition loop
(which has just called `unregister_dbus` and, before every read attempt,
`wait_for_p1_port`), `streaming` is the inner steady-state loop.  The
environment supplies, per iteration, either "the port path is absent" (an
episode of the poll loop inside `wait_for_p1_port`; reads in `streaming` do
not poll the path, so this input only arises in `acquiring`) or the outcome
of one `async_read`: a valid telegram, a checksum failure (`parse` returned
`None`), a read timeout, or a `SerialException` with `errno.ENOENT`.
Observable events are the code's d-bus calls and prints: `deviceAnnounced`
is the `register_dbus` call (bridge.py line 131), `telegramReceived` is
`update_dbus` (line 145), `checksumRejected` is the `"Telegram is None!"`
branch (line 147), `portWaiting` and `portUnavailable` and `timedOut` are
the prints of `wait_for_p1_port` and the acquisition loop handlers
(lines 27, 125, 128). -/

/-- Control state of `P1DbusBridge.run`. -/
inductive BState
  | acquiring
  | streaming
deriving DecidableEq

/-- Outcome of one `async_read`. -/
inductive ReadOutcome
  | valid (t : TelegramS)
  | crcFail
  | timeout
  | enoent
deriving DecidableEq

/-- One environment step: port-path absence or a read outcome. -/
inductive EnvStep
  | portAbsent
  | read (r : ReadOutcome)
deriving DecidableEq

/-- Observable events of `run`. -/
inductive Event
  | portWaiting
  | portUnavailable
  | timedOut
  | deviceAnnounced (t : TelegramS)
  | telegramReceived (t : TelegramS)
  | checksumRejected
deriving DecidableEq

/-- One iteration of `P1DbusBridge.run` (bridge.py lines 113-147): next
state and emitted events.  In `acquiring`: an absent path prints the waiting
message and repolls; a valid telegram triggers `register_dbus` and enters
the inner loop; a `None` telegram (checksum failure) silently retries;
a timeout prints and retries; ENOENT prints, debounces and retries.  In
`streaming`: a valid telegram is pushed via `update_dbus`; a `None`
telegram prints `"Telegram is None!"` and stays; timeout and ENOENT `break`
back to the outer loop (which unregisters and re-acquires).  A `portAbsent`
input in `streaming` cannot arise (reads do not poll the path) and is a
no-op. -/
def bridgeStep : BState → EnvStep → BState × List Event
  | .acquiring, .portAbsent => (.acquiring, [.portWaiting])
  | .acquiring, .read (.valid t) => (.streaming, [.deviceAnnounced t])
  | .acquiring, .read .crcFail => (.acquiring, [])
  | .acquiring, .read .timeout => (.acquiring, [.timedOut])
  | .acquiring, .read .enoent => (.acquiring, [.portUnavailable])
  | .streaming, .portAbsent => (.streaming, [])
  | .streaming, .read (.valid t) => (.streaming, [.telegramReceived t])
  | .streaming, .read .crcFail => (.streaming, [.checksumRejected])
  | .streaming, .read .timeout => (.acquiring, [])
  | .streaming, .read .enoent => (.acquiring, [])

/-- Run the loop over a finite script of environment steps, collecting the
emitted events in order. -/
def bridgeRun : BState → List EnvStep → List Event
  | _, [] => []
  | s, e :: rest => (bridgeStep s e).2 ++ bridgeRun (bridgeStep s e).1 rest

/-- Is an event a `DeviceAnnounced`? -/
def isAnnounce : Event → Bool
  | .deviceAnnounced _ => true
  | _ => false

/-- Number of `DeviceAnnounced` events in a trace. -/
def countAnnounce (evs : List Event) : Nat :=
  evs.countP isAnnounce

/-- Number of transitions into `streaming` along a script. -/
def entersStreaming : BState → List EnvStep → Nat
  | _, [] => 0
  | s, e :: rest =>
    (if s = BState.acquiring ∧ (bridgeStep s e).1 = BState.streaming then 1 else 0) +
      entersStreaming (bridgeStep s e).1 rest

/-! ## Session construction: `SerialReader.__init__` (dsmr.py lines 112-123) -/

/-- Construction errors: the two `AttributeError`s raised by
`SerialReader.__init__`. -/
inductive InitError
  | invalidParity
  | invalidBytesize
deriving DecidableEq

/-- The configuration held by a successfully constructed `SerialReader`.
`bytesize` stores the pyserial constant (`SEVENBITS = 7`, `EIGHTBITS = 8`),
`parity` the pyserial parity character (`PARITY_NONE = 'N'`, ...). -/
structure SerialConfig where
  port : List Char
  baud : Nat
  bytesize : Nat
  parity : Char
deriving DecidableEq

/-- `getattr(serial, f'PARITY_{parity.upper()}')`: the `serial` module
defines exactly `PARITY_NONE = 'N'`, `PARITY_EVEN = 'E'`, `PARITY_ODD =
'O'`, `PARITY_MARK = 'M'`, `PARITY_SPACE = 'S'`; any other name raises
`AttributeError` (modelled `none`). -/
def parityConst? (p : List Char) : Option Char :=
  match p.map Char.toUpper with
  | ['N', 'O', 'N', 'E'] => some 'N'
  | ['E', 'V', 'E', 'N'] => some 'E'
  | ['O', 'D', 'D'] => some 'O'
  | ['M', 'A', 'R', 'K'] => some 'M'
  | ['S', 'P', 'A', 'C', 'E'] => some 'S'
  | _ => none

/-- Python tuple indexing `xs[i]`: non-negative indices in range, negative
indices counted from the end, `IndexError` otherwise (modelled `none`). -/
def pyTupleGet? (xs : List Nat) (i : Int) : Option Nat :=
  if 0 ≤ i then xs.get? i.toNat
  else if 0 ≤ (xs.length : Int) + i then xs.get? ((xs.length : Int) + i).toNat
  else none

/-- `SerialReader.__init__` (dsmr.py lines 112-123): resolve the parity name
(raising on failure), then select the byte-size constant with
`(serial.SEVENBITS, serial.EIGHTBITS)[bytesize - 7]`, catching only
`IndexError`. -/
def serialReaderInit (port : List Char) (baud : Nat) (bytesize : Int)
    (parity : List Char) : Except InitError SerialConfig :=
  match parityConst? parity with
  | none => .error .invalidParity
  | some pc =>
    match pyTupleGet? [7, 8] (bytesize - 7) with
    | none => .error .invalidBytesize
    | some b => .ok ⟨port, baud, b, pc⟩

/-! # Theorems -/

/-! ## Checksum engine (C4) -/

theorem crc16_table_getD (i : Nat) (h : i < 256) :
    crc16_table.getD i 0 = crcTableEntry i := by
  simp [crc16_table, List.getD, List.getElem?_map, List.getElem?_range, h]

theorem specTable_getD (i : Nat) (h : i < 256) :
    specTable.getD i 0 = specTableEntry i := by
  simp [specTable, List.getD, List.getElem?_map, List.getElem?_range, h]

theorem crcTableEntry_eq_spec :
    ∀ i : Fin 256, crcTableEntry i.val = specTableEntry i.val := by
  decide

theorem specTableEntry_lt : ∀ i : Fin 256, specTableEntry i.val < 65536 := by
  decide

theorem crc16_step_eq (crc d : Nat) (hc : crc < 65536) (hd : d < 256) :
    ((crc >>> 8) % 65536) ^^^ crc16_table.getD ((crc ^^^ d) &&& 0xff) 0 =
      specTable.getD ((crc &&& 0xff) ^^^ d) 0 ^^^ (crc >>> 8) := by
  have hidx : (crc ^^^ d) &&& 0xff = (crc &&& 0xff) ^^^ d := by
    have hd' : d &&& 0xff = d := by
      have : d &&& (2 ^ 8 - 1) = d := Nat.and_pow_two_sub_one_of_lt_two_pow hd
      simpa using this
    rw [Nat.and_xor_distrib_right, hd']
  have hlt : (crc &&& 0xff) ^^^ d < 256 := by
    have h1 : crc &&& 0xff < 2 ^ 8 := by
      have : crc &&& 0xff ≤ 0xff := Nat.and_le_right
      omega
    exact Nat.xor_lt_two_pow h1 hd
  have hrot : (crc >>> 8) % 65536 = crc >>> 8 := by
    apply Nat.mod_eq_of_lt
    calc crc >>> 8 = crc / 2 ^ 8 := Nat.shiftRight_eq_div_pow crc 8
    _ ≤ crc := Nat.div_le_self _ _
    _ < 65536 := hc
  rw [hidx, hrot, crc16_table_getD _ hlt, specTable_getD _ hlt,
    crcTableEntry_eq_spec ⟨_, hlt⟩, Nat.xor_comm]

theorem crc16_fold_eq (bs : List Nat) (hb : ∀ b ∈ bs, b < 256) :
    ∀ crc, crc < 65536 →
      bs.foldl (fun crc d =>
          ((crc >>> 8) % 65536) ^^^ crc16_table.getD ((crc ^^^ d) &&& 0xff) 0) crc =
        bs.foldl (fun crc b =>
          specTable.getD ((crc &&& 0xff) ^^^ b) 0 ^^^ (crc >>> 8)) crc := by
  induction bs with
  | nil => intro crc _; rfl
  | cons b rest ih =>
    intro crc hc
    have hbb : b < 256 := hb b (List.mem_cons_self _ _)
    have hrest : ∀ x ∈ rest, x < 256 := fun x hx => hb x (List.mem_cons_of_mem _ hx)
    have hidx : (crc &&& 0xff) ^^^ b < 256 := by
      have h1 : crc &&& 0xff < 2 ^ 8 := by
        have : crc &&& 0xff ≤ 0xff := Nat.and_le_right
        omega
      exact Nat.xor_lt_two_pow h1 hbb
    have hnext : specTable.getD ((crc &&& 0xff) ^^^ b) 0 ^^^ (crc >>> 8) < 65536 := by
      have h1 : specTable.getD ((crc &&& 0xff) ^^^ b) 0 < 65536 := by
        rw [specTable_getD _ hidx]
        exact specTableEntry_lt ⟨_, hidx⟩
      have h2 : crc >>> 8 < 65536 := by
        calc crc >>> 8 = crc / 2 ^ 8 := Nat.shiftRight_eq_div_pow crc 8
        _ ≤ crc := Nat.div_le_self _ _
        _ < 65536 := hc
      have h65536 : (65536 : Nat) = 2 ^ 16 := by norm_num
      rw [h65536] at h1 h2 ⊢
      exact Nat.xor_lt_two_pow h1 h2
    simp only [List.foldl_cons]
    rw [crc16_step_eq crc b hc hbb]
    exact ih hrest _ hnext

/-- C4: the checksum engine matches the reference definition of §4.1: every
table entry agrees with the 8-round spec recurrence, and `crc16` on any byte
sequence (character codes < 256) agrees with the spec's table-driven fold
from initial value 0x0000.  Purity and determinism hold by construction:
`crc16` is a function of its input alone. -/
theorem crc16_matches_spec :
    (∀ i : Fin 256, crc16_table.getD i.val 0 = specTableEntry i.val) ∧
    (∀ bs : List (Fin 256), crc16 (bs.map Fin.val) = specCrc16 (bs.map Fin.val)) := by
  constructor
  · intro i
    rw [crc16_table_getD _ i.isLt]
    exact crcTableEntry_eq_spec i
  · intro bs
    have hb : ∀ b ∈ bs.map Fin.val, b < 256 := by
      intro b hbmem
      rcases List.mem_map.mp hbmem with ⟨x, _, hx⟩
      exact hx ▸ x.isLt
    exact crc16_fold_eq (bs.map Fin.val) hb 0 (by norm_num)

/-! ## Telegram framer (C5) -/

theorem startsWithChar_isEmpty_false {c : Char} {l : List Char}
    (h : startsWithChar c l = true) : l.isEmpty = false := by
  cases l with
  | nil => simp [startsWithChar] at h
  | cons x xs => rfl

theorem startsWithChar_mem {c : Char} {l : List Char}
    (h : startsWithChar c l = true) : c ∈ l := by
  cases l with
  | nil => simp [startsWithChar] at h
  | cons x xs =>
    simp only [startsWithChar, beq_iff_eq] at h
    exact h ▸ List.mem_cons_self _ _

theorem concatAll_append (xs ys : List (List Char)) :
    concatAll (xs ++ ys) = concatAll xs ++ concatAll ys := by
  induction xs with
  | nil => simp [concatAll]
  | cons l ls ih => simp [concatAll, ih]

theorem readLines_cons_start (ol : Bool) (l : List Char) (rest : List (List Char))
    (hne : l.isEmpty = false) (hsl : startsWithChar '/' l = true) :
    readLines ol none (l :: rest) = readLines ol (some l) rest := by
  simp [readLines, hne, hsl]

theorem readLines_cons_mid (ol : Bool) (t l : List Char) (rest : List (List Char))
    (hne : l.isEmpty = false) (hb : startsWithChar '!' l = false) :
    readLines ol (some t) (l :: rest) = readLines ol (some (t ++ l)) rest := by
  simp [readLines, hne, hb]

theorem readLines_cons_end_discard (t l : List Char) (r : List Char)
    (rs : List (List Char)) (hne : l.isEmpty = false)
    (hb : startsWithChar '!' l = true) :
    readLines true (some t) (l :: r :: rs) = readLines true none (r :: rs) := by
  simp [readLines, hne, hb]

theorem readLines_cons_end_return (ol : Bool) (t l : List Char)
    (hne : l.isEmpty = false) (hb : startsWithChar '!' l = true) :
    readLines ol (some t) [l] = some (t ++ l) := by
  simp [readLines, hne, hb]

theorem readLines_mid (ol : Bool) :
    ∀ (mid : List (List Char)),
      (∀ l ∈ mid, l.isEmpty = false ∧ startsWithChar '!' l = false) →
      ∀ t rest, readLines ol (some t) (mid ++ rest) =
        readLines ol (some (t ++ concatAll mid)) rest := by
  intro mid
  induction mid with
  | nil => intro _ t rest; simp [concatAll]
  | cons l ls ih =>
    intro hm t rest
    have hl := hm l (List.mem_cons_self _ _)
    have hls : ∀ x ∈ ls, x.isEmpty = false ∧ startsWithChar '!' x = false :=
      fun x hx => hm x (List.mem_cons_of_mem _ hx)
    rw [List.cons_append, readLines_cons_mid ol t l (ls ++ rest) hl.1 hl.2,
      ih hls (t ++ l) rest]
    simp [concatAll, List.append_assoc]

theorem readLines_wf_return (T : List (List Char)) (hT : WfTelegram T) :
    readLines true none T = some (concatAll T) := by
  obtain ⟨h, mid, last, rfl, hsl, hmid, hbang⟩ := hT
  rw [readLines_cons_start true h (mid ++ [last])
      (startsWithChar_isEmpty_false hsl) hsl,
    readLines_mid true mid hmid h [last],
    readLines_cons_end_return true (h ++ concatAll mid) last
      (startsWithChar_isEmpty_false hbang) hbang]
  simp [concatAll, concatAll_append, List.append_assoc]

/-- C5: newest-wins framing.  First conjunct: with two complete telegrams
buffered at the moment framing begins, `_read_telegram` (with the default
`only_last=True`) returns exactly the second telegram — never the first and
never a concatenation.  Second conjunct: after an end-marker line is read,
if lines are still waiting in the buffer the accumulated telegram is
discarded and framing restarts from scratch. -/
theorem framer_newest_wins (T1 T2 : List (List Char))
    (h1 : WfTelegram T1) (h2 : WfTelegram T2) :
    readTelegram true (T1 ++ T2) = some (concatAll T2) ∧
    (∀ t l r rs, startsWithChar '!' l = true →
      readLines true (some t) (l :: r :: rs) = readLines true none (r :: rs)) := by
  constructor
  · obtain ⟨h, mid, last, rfl, hsl, hmid, hbang⟩ := h1
    obtain ⟨k, mid2, last2, hT2eq, -, -, -⟩ := Iff.mp (show WfTelegram T2 ↔ WfTelegram T2 from Iff.rfl) h2
    have hT2ne : T2 ≠ [] := by rw [hT2eq]; simp
    unfold readTelegram
    rw [List.cons_append, readLines_cons_start true h ((mid ++ [last]) ++ T2)
        (startsWithChar_isEmpty_false hsl) hsl,
      List.append_assoc mid [last] T2,
      readLines_mid true mid hmid h ([last] ++ T2)]
    rw [hT2eq, List.singleton_append,
      readLines_cons_end_discard (h ++ concatAll mid) last k (mid2 ++ [last2])
        (startsWithChar_isEmpty_false hbang) hbang, ← hT2eq]
    exact readLines_wf_return T2 h2
  · intro t l r rs hb
    exact readLines_cons_end_discard t l r rs (startsWithChar_isEmpty_false hb) hb

/-- Witness for C5: two concrete buffered telegrams; the framer returns only
the second, and a concrete discard step restarts framing. -/
theorem framer_newest_wins_witness :
    readTelegram true
        ([['/', 'a', '\r', '\n'], ['1', '\r', '\n'], ['!', '\r', '\n']] ++
          [['/', 'b', '\r', '\n'], ['!', '7', '\r', '\n']]) =
      some (concatAll [['/', 'b', '\r', '\n'], ['!', '7', '\r', '\n']]) ∧
    readLines true (some ['x']) ([['!', 'z'], ['/', 'q']]) =
      readLines true none [['/', 'q']] := by
  have h1 : WfTelegram [['/', 'a', '\r', '\n'], ['1', '\r', '\n'], ['!', '\r', '\n']] :=
    ⟨['/', 'a', '\r', '\n'], [['1', '\r', '\n']], ['!', '\r', '\n'], rfl,
      by decide, by decide, by decide⟩
  have h2 : WfTelegram [['/', 'b', '\r', '\n'], ['!', '7', '\r', '\n']] :=
    ⟨['/', 'b', '\r', '\n'], [], ['!', '7', '\r', '\n'], rfl,
      by decide, by decide, by decide⟩
  exact ⟨(framer_newest_wins _ _ h1 h2).1,
    (framer_newest_wins _ _ h1 h2).2 ['x'] ['!', 'z'] ['/', 'q'] [] (by decide)⟩

/-! ## Telegram validation (C3) -/

/-- C3 counterexample: the raw string `"!"` contains the end marker and has
empty trailing checksum text, yet `parse` produces no Telegram: with
validation skipped it still calls `Telegram("!")`, whose header/data split
on the absent `"\r\n"` raises `ValueError`.  This refutes the claim that a
Telegram is returned exactly when the checksum text is empty or matches. -/
theorem parse_bang_only_exn : parse ['!'] = ParseResult.exn := by decide

/-- C3 (amended): for every raw string containing `'!'`, with the body being
everything through the first `'!'` and the checksum text the right-stripped
remainder, `parse` returns a Telegram exactly when (the checksum text is
empty, or it parses as hex and equals `crc16(body)`) AND the body contains
the `"\r\n"` header separator required by `Telegram.__init__`; and whenever
the checksum text parses as hex but differs from `crc16(body)`, `parse`
fails with the ChecksumError outcome and produces no Telegram. -/
theorem parse_telegram_iff (s : List Char) (ix : Nat)
    (hix : index? '!' s = some ix) :
    ((∃ t, parse s = ParseResult.tele t) ↔
      ((rstripWs (s.drop (ix + 1)) = [] ∨
        ∃ v, pyIntHex? (rstripWs (s.drop (ix + 1))) = some v ∧
          (crc16 ((s.take (ix + 1)).map Char.toNat) : Int) = v) ∧
        (splitCrlf? (s.take (ix + 1))).isSome = true)) ∧
    (∀ v, pyIntHex? (rstripWs (s.drop (ix + 1))) = some v →
      (crc16 ((s.take (ix + 1)).map Char.toNat) : Int) ≠ v →
      parse s = ParseResult.crcError) := by
  have hp : parse s =
      if rstripWs (s.drop (ix + 1)) = [] then mkTelegram (s.take (ix + 1))
      else
        match pyIntHex? (rstripWs (s.drop (ix + 1))) with
        | none => ParseResult.exn
        | some expected =>
          if (crc16 ((s.take (ix + 1)).map Char.toNat) : Int) = expected then
            mkTelegram (s.take (ix + 1))
          else ParseResult.crcError := by
    simp only [parse, hix]
  by_cases hempty : rstripWs (s.drop (ix + 1)) = []
  · rw [if_pos hempty] at hp
    have hhexnone : pyIntHex? (rstripWs (s.drop (ix + 1))) = none := by
      rw [hempty]; rfl
    refine ⟨?_, ?_⟩
    · rw [hp]
      constructor
      · rintro ⟨t, ht⟩
        cases hsp : splitCrlf? (s.take (ix + 1)) with
        | none => simp [mkTelegram, hsp] at ht
        | some p => exact ⟨Or.inl hempty, by simp [hsp]⟩
      · rintro ⟨-, hsome⟩
        cases hsp : splitCrlf? (s.take (ix + 1)) with
        | none => simp [hsp] at hsome
        | some p => exact ⟨⟨p.1, lstripCrlf p.2⟩, by simp [mkTelegram, hsp]⟩
    · intro v hv
      rw [hhexnone] at hv
      cases hv
  · rw [if_neg hempty] at hp
    cases hhex : pyIntHex? (rstripWs (s.drop (ix + 1))) with
    | none =>
      simp only [hhex] at hp
      refine ⟨?_, ?_⟩
      · rw [hp]
        constructor
        · rintro ⟨t, ht⟩
          simp at ht
        · rintro ⟨hor, -⟩
          rcases hor with h | ⟨v, hv, -⟩
          · exact absurd h hempty
          · exact Option.noConfusion hv
      · intro v hv
        exact absurd hv (fun hco => Option.noConfusion hco)
    | some w =>
      simp only [hhex] at hp
      by_cases hcrc : (crc16 ((s.take (ix + 1)).map Char.toNat) : Int) = w
      · rw [if_pos hcrc] at hp
        refine ⟨?_, ?_⟩
        · rw [hp]
          constructor
          · rintro ⟨t, ht⟩
            cases hsp : splitCrlf? (s.take (ix + 1)) with
            | none => simp [mkTelegram, hsp] at ht
            | some p => exact ⟨Or.inr ⟨w, rfl, hcrc⟩, by simp [hsp]⟩
          · rintro ⟨-, hsome⟩
            cases hsp : splitCrlf? (s.take (ix + 1)) with
            | none => simp [hsp] at hsome
            | some p => exact ⟨⟨p.1, lstripCrlf p.2⟩, by simp [mkTelegram, hsp]⟩
        · intro v hv hne
          injection hv with hv
          exact absurd (hv ▸ hcrc) hne
      · rw [if_neg hcrc] at hp
        refine ⟨?_, ?_⟩
        · rw [hp]
          constructor
          · rintro ⟨t, ht⟩
            simp at ht
          · rintro ⟨hor, -⟩
            rcases hor with h | ⟨v, hv, hveq⟩
            · exact absurd h hempty
            · injection hv with hv
              exact absurd (hv ▸ hveq) hcrc
        · intro v hv hne
          exact hp

/-- Witness for C3 (amended), instantiated at the input `"!"`. -/
theorem parse_telegram_iff_witness :
    ((∃ t, parse ['!'] = ParseResult.tele t) ↔
      ((rstripWs (['!'].drop (0 + 1)) = [] ∨
        ∃ v, pyIntHex? (rstripWs (['!'].drop (0 + 1))) = some v ∧
          (crc16 ((['!'].take (0 + 1)).map Char.toNat) : Int) = v) ∧
        (splitCrlf? (['!'].take (0 + 1))).isSome = true)) ∧
    (∀ v, pyIntHex? (rstripWs (['!'].drop (0 + 1))) = some v →
      (crc16 ((['!'].take (0 + 1)).map Char.toNat) : Int) ≠ v →
      parse ['!'] = ParseResult.crcError) :=
  parse_telegram_iff ['!'] 0 (by decide)

/-! ## Parse precondition (C10) -/

theorem index?_eq_none {c : Char} :
    ∀ (s : List Char), (∀ x ∈ s, x ≠ c) → index? c s = none := by
  intro s
  induction s with
  | nil => intro _; rfl
  | cons x xs ih =>
    intro h
    have hx : x ≠ c := h x (List.mem_cons_self _ _)
    simp [index?, hx, ih (fun y hy => h y (List.mem_cons_of_mem _ hy))]

theorem readLines_some_bang_mem (ol : Bool) :
    ∀ (lines : List (List Char)) (acc : Option (List Char)) (t : List Char),
      readLines ol acc lines = some t → '!' ∈ t := by
  intro lines
  induction lines with
  | nil => intro acc t h; simp [readLines] at h
  | cons l rest ih =>
    intro acc t h
    cases hemp : l.isEmpty with
    | true => simp [readLines, hemp] at h
    | false =>
      cases acc with
      | none =>
        simp only [readLines, hemp, Bool.false_eq_true, if_false] at h
        exact ih _ _ h
      | some a =>
        cases hbang : startsWithChar '!' l with
        | false =>
          simp only [readLines, hemp, hbang, Bool.false_eq_true, if_false] at h
          exact ih _ _ h
        | true =>
          simp only [readLines, hemp, hbang, Bool.false_eq_true, if_false, if_true] at h
          by_cases hw : (ol && !rest.isEmpty) = true
          · rw [if_pos hw] at h
            exact ih _ _ h
          · rw [if_neg hw] at h
            injection h with h
            exact h ▸ List.mem_append_right a (startsWithChar_mem hbang)

/-- C10: implicit precondition of `parse`.  Any input without the end marker
`'!'` makes `parse` fail with the uncaught `ValueError` of
`telegram.index('!')` (`.exn`), which is neither a Telegram nor the
ChecksumError outcome; and the framer guarantees the precondition by
construction: every string `_read_telegram` returns contains `'!'`. -/
theorem parse_requires_end_marker :
    (∀ s : List Char, (∀ c ∈ s, c ≠ '!') → parse s = ParseResult.exn) ∧
    (∀ lines t, readTelegram true lines = some t → '!' ∈ t) := by
  constructor
  · intro s hs
    have hnone : index? '!' s = none := index?_eq_none s hs
    simp [parse, hnone]
  · intro lines t h
    exact readLines_some_bang_mem true lines none t h

/-- Witness for C10: `parse "ab"` raises, and a concrete framed telegram
contains the end marker. -/
theorem parse_requires_end_marker_witness :
    parse ['a', 'b'] = ParseResult.exn ∧ '!' ∈ ['/', 'a', '!', 'x'] :=
  ⟨parse_requires_end_marker.1 ['a', 'b'] (by decide),
    parse_requires_end_marker.2 [['/', 'a'], ['!', 'x']] ['/', 'a', '!', 'x'] (by decide)⟩

/-! ## Field decoding (C2, C7) -/

/-- C2 counterexample: the payload `"ab*kW"` contains a `'*'` separator and
its magnitude `"ab"` fails the float parse, yet decoding does not fail with
any error: the `except ValueError` fallback silently produces the ordinary
(non-error) value holding the whole payload as opaque text. -/
theorem cosem_malformed_counterexample :
    cosemDecode ['a', 'b', '*', 'k', 'W'] =
      ⟨PyVal.txt ['a', 'b', '*', 'k', 'W'], none⟩ := by decide

/-- C2 (amended): for a payload splitting at `'*'` into exactly a magnitude
and a unit, the magnitude is parsed as a float and on success the field
decodes to that number with the unit; when the float parse fails the
decoder does not raise a per-field error but silently falls back to the
whole payload as opaque text with no unit. -/
theorem cosem_star_decode (data v u : List Char)
    (hsplit : data.splitOn '*' = [v, u]) :
    (floatAccepts v = true → cosemDecode data = ⟨.num v, some u⟩) ∧
    (floatAccepts v = false → cosemDecode data = ⟨.txt data, none⟩) := by
  constructor <;> intro h <;> simp [cosemDecode, hsplit, h]

/-- Witness for C2 (amended): a well-formed numeric payload and a malformed
one. -/
theorem cosem_star_decode_witness :
    cosemDecode ['1', '.', '5', '*', 'k', 'W'] =
      ⟨PyVal.num ['1', '.', '5'], some ['k', 'W']⟩ ∧
    cosemDecode ['a', '*', 'u'] = ⟨PyVal.txt ['a', '*', 'u'], none⟩ :=
  ⟨(cosem_star_decode ['1', '.', '5', '*', 'k', 'W'] ['1', '.', '5'] ['k', 'W']
      (by decide)).1 (by decide),
    (cosem_star_decode ['a', '*', 'u'] ['a'] ['u'] (by decide)).2 (by decide)⟩

/-- C7: a payload without a `'*'` separator — numeric or not — decodes to
the entire payload as opaque text with no unit, and is never a numeric
value (in particular never a silently-coerced zero). -/
theorem cosem_no_star_opaque (data : List Char) (h : '*' ∉ data) :
    cosemDecode data = ⟨PyVal.txt data, none⟩ ∧
    ∀ m, (cosemDecode data).value ≠ PyVal.num m := by
  have hsplit : data.splitOn '*' = [data] := by
    apply List.splitOnP_eq_single
    intro x hx hbeq
    exact h (beq_iff_eq.mp hbeq ▸ hx)
  have hdec : cosemDecode data = ⟨PyVal.txt data, none⟩ := by
    simp [cosemDecode, hsplit]
  exact ⟨hdec, fun m hm => by rw [hdec] at hm; exact PyVal.noConfusion hm⟩

/-- Witness for C7: the non-numeric payload `"abc"`. -/
theorem cosem_no_star_opaque_witness :
    cosemDecode ['a', 'b', 'c'] = ⟨PyVal.txt ['a', 'b', 'c'], none⟩ ∧
    ∀ m, (cosemDecode ['a', 'b', 'c']).value ≠ PyVal.num m :=
  cosem_no_star_opaque ['a', 'b', 'c'] (by decide)

/-! ## Field extractor (C6) -/

theorem crlfScan_isSome_iff : ∀ s : List Char,
    (crlfScan? s).isSome = true ↔
      ∃ p q, s = p ++ '\r' :: '\n' :: q ∧ ∀ x ∈ p, x ≠ '\n' := by
  intro s
  induction s with
  | nil =>
    simp only [crlfScan?, Option.isSome_none, Bool.false_eq_true, false_iff]
    rintro ⟨p, q, hpq, -⟩
    have := congrArg List.length hpq
    simp at this
    omega
  | cons c1 tail ih =>
    cases tail with
    | nil =>
      simp only [crlfScan?, Option.isSome_none, Bool.false_eq_true, false_iff]
      rintro ⟨p, q, hpq, -⟩
      have := congrArg List.length hpq
      simp at this
      omega
    | cons c2 rest =>
      by_cases h1 : c1 = '\r' ∧ c2 = '\n'
      · simp only [crlfScan?, if_pos h1, Option.isSome_some, true_iff]
        exact ⟨[], rest, by rw [h1.1, h1.2]; rfl, fun x hx => absurd hx (List.not_mem_nil x)⟩
      · by_cases h2 : c1 = '\n'
        · simp only [crlfScan?, if_neg h1, if_pos h2, Option.isSome_none,
            Bool.false_eq_true, false_iff]
          rintro ⟨p, q, hpq, hp⟩
          cases p with
          | nil =>
            simp only [List.nil_append, List.cons.injEq] at hpq
            exact h1 ⟨hpq.1, hpq.2.1⟩
          | cons x p' =>
            simp only [List.cons_append, List.cons.injEq] at hpq
            exact hp x (List.mem_cons_self _ _) (hpq.1 ▸ h2)
        · simp only [crlfScan?, if_neg h1, if_neg h2, Option.isSome_map']
          rw [ih]
          constructor
          · rintro ⟨p', q, hpq, hp'⟩
            refine ⟨c1 :: p', q, by rw [List.cons_append, hpq], ?_⟩
            intro x hx
            rcases List.mem_cons.mp hx with rfl | hx'
            · exact h2
            · exact hp' x hx'
          · rintro ⟨p, q, hpq, hp⟩
            cases p with
            | nil =>
              simp only [List.nil_append, List.cons.injEq] at hpq
              exact absurd ⟨hpq.1, hpq.2.1⟩ h1
            | cons x p' =>
              simp only [List.cons_append, List.cons.injEq] at hpq
              exact ⟨p', q, hpq.2, fun y hy => hp y (List.mem_cons_of_mem _ hy)⟩

theorem dotPlusCrlf_isSome_iff (s : List Char) :
    (dotPlusCrlf? s).isSome = true ↔
      ∃ p q, s = p ++ '\r' :: '\n' :: q ∧ p ≠ [] ∧ ∀ x ∈ p, x ≠ '\n' := by
  cases s with
  | nil =>
    simp only [dotPlusCrlf?, Option.isSome_none, Bool.false_eq_true, false_iff]
    rintro ⟨p, q, hpq, -, -⟩
    have := congrArg List.length hpq
    simp at this
    omega
  | cons c rest =>
    by_cases hc : c = '\n'
    · simp only [dotPlusCrlf?, if_pos hc, Option.isSome_none, Bool.false_eq_true,
        false_iff]
      rintro ⟨p, q, hpq, hne, hp⟩
      cases p with
      | nil => exact hne rfl
      | cons x p' =>
        simp only [List.cons_append, List.cons.injEq] at hpq
        exact hp x (List.mem_cons_self _ _) (hpq.1 ▸ hc)
    · simp only [dotPlusCrlf?, if_neg hc, Option.isSome_map']
      rw [crlfScan_isSome_iff rest]
      constructor
      · rintro ⟨p', q, hpq, hp'⟩
        refine ⟨c :: p', q, by rw [List.cons_append, hpq], by simp, ?_⟩
        intro x hx
        rcases List.mem_cons.mp hx with rfl | hx'
        · exact hc
        · exact hp' x hx'
      · rintro ⟨p, q, hpq, hne, hp⟩
        cases p with
        | nil => exact absurd rfl hne
        | cons x p' =>
          simp only [List.cons_append, List.cons.injEq] at hpq
          exact ⟨p', q, hpq.2, fun y hy => hp y (List.mem_cons_of_mem _ hy)⟩

theorem obisLineAt_isSome_iff (code s : List Char) :
    (obisLineAt? code s).isSome = true ↔ HeadMatch code s := by
  rcases s with _ | ⟨a, _ | ⟨b, _ | ⟨c, _ | ⟨d, rest⟩⟩⟩⟩
  · simp only [obisLineAt?, Option.isSome_none, Bool.false_eq_true, false_iff]
    rintro ⟨a, b, c, d, rest, hpq, -⟩
    cases hpq
  · simp only [obisLineAt?, Option.isSome_none, Bool.false_eq_true, false_iff]
    rintro ⟨a', b', c', d', rest', hpq, -⟩
    simp at hpq
  · simp only [obisLineAt?, Option.isSome_none, Bool.false_eq_true, false_iff]
    rintro ⟨a', b', c', d', rest', hpq, -⟩
    simp at hpq
  · simp only [obisLineAt?, Option.isSome_none, Bool.false_eq_true, false_iff]
    rintro ⟨a', b', c', d', rest', hpq, -⟩
    simp at hpq
  · by_cases hcond : a.isDigit ∧ b = '-' ∧ c.isDigit ∧ d = ':' ∧
      rest.take code.length = code
    · simp only [obisLineAt?, if_pos hcond, Option.isSome_map']
      rw [dotPlusCrlf_isSome_iff]
      constructor
      · rintro ⟨p, q, hpq, hne, hp⟩
        exact ⟨a, b, c, d, rest, rfl, hcond.1, hcond.2.1, hcond.2.2.1,
          hcond.2.2.2.1, hcond.2.2.2.2, p, q, hpq, hne, hp⟩
      · rintro ⟨a', b', c', d', rest', heq, -, -, -, -, -, p, q, hpq, hne, hp⟩
        obtain ⟨rfl, rfl, rfl, rfl, rfl⟩ :
            a' = a ∧ b' = b ∧ c' = c ∧ d' = d ∧ rest' = rest := by
          simp only [List.cons.injEq] at heq
          exact ⟨heq.1.symm, heq.2.1.symm, heq.2.2.1.symm, heq.2.2.2.1.symm,
            heq.2.2.2.2.symm⟩
        exact ⟨p, q, hpq, hne, hp⟩
    · simp only [obisLineAt?, if_neg hcond, Option.isSome_none, Bool.false_eq_true,
        false_iff]
      rintro ⟨a', b', c', d', rest', heq, h1, h2, h3, h4, h5, -⟩
      obtain ⟨rfl, rfl, rfl, rfl, rfl⟩ :
          a' = a ∧ b' = b ∧ c' = c ∧ d' = d ∧ rest' = rest := by
        simp only [List.cons.injEq] at heq
        exact ⟨heq.1.symm, heq.2.1.symm, heq.2.2.1.symm, heq.2.2.2.1.symm,
          heq.2.2.2.2.symm⟩
      exact hcond ⟨h1, h2, h3, h4, h5⟩

theorem reSearch_eq_none_iff (code : List Char) : ∀ s : List Char,
    reSearch code s = none ↔ ∀ i, ¬ HeadMatch code (s.drop i) := by
  intro s
  induction s with
  | nil =>
    simp only [reSearch, true_iff]
    intro i
    rw [List.drop_nil]
    rintro ⟨a, b, c, d, rest, hpq, -⟩
    cases hpq
  | cons ch rest ih =>
    cases hm : obisLineAt? code (ch :: rest) with
    | some m =>
      simp only [reSearch, hm]
      apply iff_of_false (by simp)
      intro hall
      have h0 := hall 0
      rw [List.drop_zero] at h0
      have : (obisLineAt? code (ch :: rest)).isSome = true := by rw [hm]; rfl
      exact h0 ((obisLineAt_isSome_iff code (ch :: rest)).mp this)
    | none =>
      simp only [reSearch, hm]
      rw [ih]
      constructor
      · intro hall i
        cases i with
        | zero =>
          rw [List.drop_zero]
          intro hmatch
          have : (obisLineAt? code (ch :: rest)).isSome = true :=
            (obisLineAt_isSome_iff code (ch :: rest)).mpr hmatch
          rw [hm] at this
          cases this
        | succ j =>
          rw [List.drop_succ_cons]
          exact hall j
      · intro hall i
        have := hall (i + 1)
        rwa [List.drop_succ_cons] at this

/-- C6: `telegram[id]` returns NotFound (the `None` of `__getitem__`, not an
error or exception) exactly when no position of the telegram's data section
matches the identifier's pattern.  The embedding is a pure function of the
telegram and the queried identifier, so a NotFound for one identifier
cannot affect extraction of any other identifier from the same telegram. -/
theorem telegramGet_notFound_iff (t : TelegramS) (id : OBIS_ID) :
    telegramGet t id = GetResult.notFound ↔
      ∀ i, ¬ HeadMatch (obisCode id) (t.data.drop i) := by
  unfold telegramGet
  cases hs : reSearch (obisCode id) t.data with
  | none =>
    simp only [true_iff]
    exact (reSearch_eq_none_iff _ t.data).mp hs
  | some line =>
    have hne : ¬ ∀ i, ¬ HeadMatch (obisCode id) (t.data.drop i) := by
      intro hall
      have : reSearch (obisCode id) t.data = none :=
        (reSearch_eq_none_iff _ _).mpr hall
      rw [hs] at this
      cases this
    cases hc : cosemOfLine? (stripWs line) with
    | none =>
      simp only [hc]
      exact iff_of_false (by simp) hne
    | some v =>
      simp only [hc]
      exact iff_of_false (by simp) hne

/-! ## Acquisition state machine (C8, C9) -/

theorem countAnnounce_append (a b : List Event) :
    countAnnounce (a ++ b) = countAnnounce a + countAnnounce b := by
  simp [countAnnounce, List.countP_append]

theorem countAnnounce_step (s : BState) (e : EnvStep) :
    countAnnounce (bridgeStep s e).2 =
      if s = BState.acquiring ∧ (bridgeStep s e).1 = BState.streaming then 1
      else 0 := by
  rcases e with _ | r
  · cases s <;> simp [bridgeStep, countAnnounce, isAnnounce]
  · rcases r with t | _ | _ | _ <;> cases s <;>
      simp [bridgeStep, countAnnounce, isAnnounce]

theorem countAnnounce_run (script : List EnvStep) :
    ∀ s : BState, countAnnounce (bridgeRun s script) = entersStreaming s script := by
  induction script with
  | nil => intro s; rfl
  | cons e rest ih =>
    intro s
    simp only [bridgeRun, entersStreaming]
    rw [countAnnounce_append, countAnnounce_step s e, ih (bridgeStep s e).1]

/-- C8: in the acquisition loop, `register_dbus` (DeviceAnnounced) fires on
a valid read in `acquiring`, which is the transition into `streaming`; a
valid read while `streaming` only calls `update_dbus` (TelegramReceived)
and never re-announces; a read timeout while `streaming` falls back to the
outer acquisition loop, whose every read attempt is preceded by the port
poll of `wait_for_p1_port` (an absent path emits PortWaiting); and along
any script, the number of DeviceAnnounced events in the trace equals the
number of transitions into `streaming`. -/
theorem bridge_device_announced_once (s : BState) (script : List EnvStep)
    (t : TelegramS) :
    bridgeStep .acquiring (.read (.valid t)) = (.streaming, [.deviceAnnounced t]) ∧
    bridgeStep .streaming (.read (.valid t)) = (.streaming, [.telegramReceived t]) ∧
    bridgeStep .streaming (.read .timeout) = (.acquiring, []) ∧
    bridgeStep .acquiring .portAbsent = (.acquiring, [.portWaiting]) ∧
    countAnnounce (bridgeRun s script) = entersStreaming s script :=
  ⟨rfl, rfl, rfl, rfl, countAnnounce_run script s⟩

/-- C9: a checksum failure while `streaming` emits ChecksumRejected
(`"Telegram is None!"`), keeps the state `streaming`, and the very next
valid telegram still produces TelegramReceived within the same session. -/
theorem bridge_checksum_resilient (t : TelegramS) (rest : List EnvStep) :
    bridgeStep .streaming (.read .crcFail) = (.streaming, [.checksumRejected]) ∧
    bridgeRun .streaming (.read .crcFail :: .read (.valid t) :: rest) =
      .checksumRejected :: .telegramReceived t :: bridgeRun .streaming rest :=
  ⟨rfl, rfl⟩

/-! ## Session construction (C1) -/

/-- C1 (evaluation at the failing inputs): `SerialReader.__init__` silently
accepts byte sizes 5 and 6 — Python's negative tuple indexing maps
`bytesize - 7 = -2` to `SEVENBITS` and `-1` to `EIGHTBITS` without the
`IndexError` the code relies on — while its own error message demands
"Should be 7 or 8".  Sizes 7 and 8 succeed as intended and sizes outside
5..8 do raise. -/
theorem serialReaderInit_bytesize_bug :
    serialReaderInit ['p'] 115200 6 ['n', 'o', 'n', 'e'] =
      Except.ok ⟨['p'], 115200, 8, 'N'⟩ ∧
    serialReaderInit ['p'] 115200 5 ['n', 'o', 'n', 'e'] =
      Except.ok ⟨['p'], 115200, 7, 'N'⟩ ∧
    serialReaderInit ['p'] 115200 7 ['n', 'o', 'n', 'e'] =
      Except.ok ⟨['p'], 115200, 7, 'N'⟩ ∧
    serialReaderInit ['p'] 115200 8 ['n', 'o', 'n', 'e'] =
      Except.ok ⟨['p'], 115200, 8, 'N'⟩ ∧
    serialReaderInit ['p'] 115200 4 ['n', 'o', 'n', 'e'] =
      Except.error InitError.invalidBytesize ∧
    serialReaderInit ['p'] 115200 9 ['n', 'o', 'n', 'e'] =
      Except.error InitError.invalidBytesize :=
  ⟨rfl, rfl, rfl, rfl, rfl, rfl⟩

end P1
